import Mathlib

/-!
Verification of the stroke-lesion segmentation benchmark problem
(`problem.py` and `submissions/deep_learn/estimator.py`).

Modelling conventions:
* a 3-D (or 4-D) numpy array is modelled by its flattened list of entries,
  together with, where shape matters, an explicit shape list of natural
  numbers (the numpy shape tuple);
* a possibly-NaN floating point entry is modelled as `Option ℚ`, with
  `none` playing the role of IEEE NaN: every ordered comparison against
  `none` is false, exactly as every comparison against NaN is false, and
  `np.isnan` is `Option.isNone`;
* finite floating point values are modelled as rationals;
* a Python function that can raise is modelled as an `Except String`
  computation whose error carries the message text.
-/

namespace Stroke

/-- A possibly-NaN scalar: `none` models IEEE NaN. -/
abbrev Val := Option ℚ

/-- `check_mask` from `problem.py`: asserts that the given mask consists
only of 0s and 1s, raising an `AssertionError` with the source message
otherwise. -/
def check_mask (mask : List ℚ) : Except String Unit :=
  if mask.all (fun v => decide (v = 0 ∨ v = 1)) then Except.ok ()
  else Except.error "Cannot compute the score.Found values other than 0s and 1s"

/-- `np.any` on a flattened mask: true when some entry is nonzero. -/
def npAny (mask : List ℚ) : Bool :=
  mask.any (fun v => decide (v ≠ 0))

/-- `np.mean` on a flattened mask: sum divided by length. -/
def npMean (mask : List ℚ) : ℚ :=
  mask.sum / (mask.length : ℚ)

/-- `np.sum(np.logical_and(y_pred_mask, y_true_mask) * 2.0)` from
`DiceCoeff._dice_coeff`: each position where both entries are nonzero
contributes `2.0`, every other position contributes `0`. -/
def interSum (y_pred_mask y_true_mask : List ℚ) : ℚ :=
  (List.zipWith (fun p t => if p ≠ 0 ∧ t ≠ 0 then (2 : ℚ) else 0)
    y_pred_mask y_true_mask).sum

/-- `DiceCoeff._dice_coeff` from `problem.py`: 1 when neither mask has any
nonzero entry, otherwise twice the intersection sum over the sum of the two
mask sums. -/
def dice_coeff (y_true_mask y_pred_mask : List ℚ) : ℚ :=
  if (!npAny y_pred_mask) && (!npAny y_true_mask) then 1
  else interSum y_pred_mask y_true_mask / (y_pred_mask.sum + y_true_mask.sum)

/-- `DiceCoeff.__call__` from `problem.py`: validates both masks with
`check_mask`, then returns `_dice_coeff`. -/
def DiceCoeff_call (y_true_mask y_pred_mask : List ℚ) : Except String ℚ := do
  check_mask y_true_mask
  check_mask y_pred_mask
  Except.ok (dice_coeff y_true_mask y_pred_mask)

/-- Modelled from the spec: `sklearn.metrics.precision_score` is an external
library function, not part of this repository. Per the spec it is the
standard precision over the flattened voxel labels: true positives over
predicted positives (and it yields 0 when there is no predicted positive,
the undefined case). -/
def precision_score (y_true y_pred : List ℚ) : ℚ :=
  let tp : ℕ := ((List.zip y_true y_pred).filter
    (fun x => decide (x.1 = 1 ∧ x.2 = 1))).length
  let pp : ℕ := (y_pred.filter (fun v => decide (v = 1))).length
  if pp = 0 then 0 else (tp : ℚ) / (pp : ℚ)

/-- `Precision.__call__` from `problem.py`: validates both masks, returns
0.0 when the prediction has zero sum while the truth does not, and otherwise
the (spec-modelled) `precision_score` of the flattened masks. -/
def Precision_call (y_true_mask y_pred_mask : List ℚ) : Except String ℚ := do
  check_mask y_true_mask
  check_mask y_pred_mask
  if y_pred_mask.sum = 0 ∧ ¬(y_true_mask.sum = 0) then Except.ok 0
  else Except.ok (precision_score y_true_mask y_pred_mask)

/-- `AbsoluteVolumeDifference.__call__` from `problem.py`: validates both
masks, then returns the absolute difference of their means. -/
def AbsoluteVolumeDifference_call (y_true_mask y_pred_mask : List ℚ) :
    Except String ℚ := do
  check_mask y_true_mask
  check_mask y_pred_mask
  Except.ok |npMean y_true_mask - npMean y_pred_mask|

/-- `_MultiClass3d.check_y_pred_dimensions` from `problem.py`, acting on the
numpy shape tuple of the stored `y_pred`: raises when the rank is not 4,
then when the three trailing (spatial) dimensions differ from the configured
ones; the messages are the source f-strings, with `self.n_samples`
(`len(self.y_pred)`, the leading dimension) rendered from the shape. -/
def check_y_pred_dimensions (x_len y_len z_len : ℕ) (shape : List ℕ) :
    Except String Unit :=
  if shape.length ≠ 4 then
    Except.error ("Wrong y_pred dimensions: y_pred should be 4D, of size:(" ++
      toString (shape.headD 0) ++ " x " ++ toString x_len ++ " x " ++
      toString y_len ++ " x " ++ toString z_len ++
      ")instead its shape is " ++ toString shape)
  else if shape.drop 1 ≠ [x_len, y_len, z_len] then
    Except.error ("Wrong y_pred dimensions: y_pred should be " ++
      toString x_len ++ " x " ++ toString y_len ++ " x " ++ toString z_len ++
      " instead its shape is " ++ toString shape)
  else Except.ok ()

/-- `_MultiClass3d.__init__` from `problem.py`, at the level of the numpy
shape of the stored array: takes the `y_pred` shape if given, else the
`y_true` shape, else builds the all-NaN `(n_samples, x_len, y_len, z_len)`
array, else raises the missing-argument error; finally it runs
`check_y_pred_dimensions` and, on success, yields the stored shape. -/
def multiClass3d_init (x_len y_len z_len : ℕ) (label_names : List ℤ)
    (y_pred y_true : Option (List ℕ)) (n_samples : Option ℕ) :
    Except String (List ℕ) := do
  let shape ←
    match y_pred with
    | some s => Except.ok s
    | none =>
      match y_true with
      | some s => Except.ok s
      | none =>
        match n_samples with
        | some n => Except.ok [n, x_len, y_len, z_len]
        | none =>
          Except.error "Missing init argument: y_pred, y_true, or n_samples"
  check_y_pred_dimensions x_len y_len z_len shape
  Except.ok shape

/-- `np.nanmean` over one voxel position across folds: the mean of the
non-NaN entries, or NaN when every entry is NaN. -/
def nanmean (vals : List Val) : Val :=
  let xs := vals.filterMap id
  if xs.isEmpty then none else some (xs.sum / (xs.length : ℚ))

/-- The containers selected by `index_list` (all of them when it is
`None`), as in the base-class combine. -/
def selectPredictions (predictions_list : List (List Val))
    (index_list : Option (List ℕ)) : List (List Val) :=
  match index_list with
  | none => predictions_list
  | some idx => idx.filterMap (fun i => predictions_list.get? i)

/-- Modelled from the spec: the base-class `BasePrediction.combine` of the
external `rampwf` library (not part of this repository) averages per-voxel
predictions across whichever selected containers cover a given position,
ignoring NaN entries; a position covered by no container stays NaN. -/
def base_combine (predictions_list : List (List Val))
    (index_list : Option (List ℕ)) : List Val :=
  let sel := selectPredictions predictions_list index_list
  (List.range (sel.headD []).length).map
    (fun i => nanmean (sel.map (fun l => l.getD i none)))

/-- The first in-place update of `_MultiClass3d.combine`:
`y_pred[y_pred < 0.5] = 0.0`. A NaN entry compares false and is untouched. -/
def setLowToZero (v : Val) : Val :=
  match v with
  | some x => if x < 1/2 then some 0 else some x
  | none => none

/-- The second in-place update of `_MultiClass3d.combine`:
`y_pred[y_pred >= 0.5] = 1.0`. A NaN entry compares false and is untouched. -/
def setHighToOne (v : Val) : Val :=
  match v with
  | some x => if 1/2 ≤ x then some 1 else some x
  | none => none

/-- `_MultiClass3d.combine` from `problem.py`: the base-class average
followed by the two thresholding updates. -/
def multiClass3d_combine (predictions_list : List (List Val))
    (index_list : Option (List ℕ)) : List Val :=
  (base_combine predictions_list index_list).map
    (fun v => setHighToOne (setLowToZero v))

/-- `_MultiClass3d.valid_indexes` from `problem.py`: when the stored array
has rank 4, the boolean mask `~np.isnan(y_pred)`; otherwise it raises. -/
def valid_indexes (shape : List ℕ) (y_pred : List Val) :
    Except String (List Bool) :=
  if shape.length = 4 then Except.ok (y_pred.map (fun v => !v.isNone))
  else Except.error "y_pred.shape != 4 is not implemented"

/-- `RANDOM_STATE` from `problem.py`. -/
def RANDOM_STATE : ℕ := 42

/-- A linear congruential step, the pseudo-random source of the modelled
shuffler. -/
def lcg (s : ℕ) : ℕ := (1103515245 * s + 12345) % 2147483648

/-- Fisher-Yates selection driven by `lcg`, with explicit fuel equal to the
list length: each step removes the element at a pseudo-random position. -/
def fyGo : ℕ → ℕ → List ℕ → List ℕ
  | 0, _, _ => []
  | n + 1, s, l =>
    let k := s % (n + 1)
    l.getD k 0 :: fyGo n (lcg s) (l.take k ++ l.drop (k + 1))

/-- Modelled from the spec: `sklearn.model_selection.ShuffleSplit` is an
external library class, not part of this repository. With
`test_size=0.2` it yields `n_splits` train/test splits of `range n`, each
obtained by drawing a seed-determined permutation of the indices and holding
out the first `ceil(0.2 * n) = (n + 4) / 5` of them as the test set; the
draw depends only on `random_state` and the split number, so repeated calls
give identical splits. -/
def shuffleSplit (n_splits random_state n : ℕ) : List (List ℕ × List ℕ) :=
  (List.range n_splits).map (fun j =>
    let perm := fyGo n (lcg (random_state + j + 1)) (List.range n)
    let n_test := (n + 4) / 5
    (perm.drop n_test, perm.take n_test))

/-- Truthiness of the result of `os.getenv('RAMP_TEST_MODE', 0)`: the
default 0 is falsy when the variable is unset, and a set variable is truthy
exactly when its string value is non-empty. -/
def pythonTruthy (v : Option String) : Bool :=
  match v with
  | none => false
  | some s => !s.isEmpty

/-- `get_cv` from `problem.py`: 1 split when `RAMP_TEST_MODE` is truthy,
8 splits otherwise, from a `ShuffleSplit` with `test_size=0.2` and
`random_state=RANDOM_STATE`. -/
def get_cv (ramp_test_mode : Option String) (n : ℕ) :
    List (List ℕ × List ℕ) :=
  let n_splits := if pythonTruthy ramp_test_mode then 1 else 8
  shuffleSplit n_splits RANDOM_STATE n

/-- `KerasSegmentationClassifier.predict` from `estimator.py`, after the
network output: `y_pred = (y_pred > 0.5) * 1` maps every entry strictly
greater than 0.5 to 1 and every other entry to 0, and `y_pred[..., 0]`
drops the trailing channel dimension (of extent 1, so the flattened data is
unchanged). -/
def keras_predict (y_pred : List ℚ) (shape : List ℕ) : List ℚ × List ℕ :=
  (y_pred.map (fun v => if 1/2 < v then 1 else 0), shape.dropLast)

/-- A binary mask in the sense of the spec: every voxel label is 0 or 1. -/
def binaryMask (m : List ℚ) : Prop := ∀ v ∈ m, v = 0 ∨ v = 1

instance (m : List ℚ) : Decidable (binaryMask m) :=
  inferInstanceAs (Decidable (∀ v ∈ m, v = 0 ∨ v = 1))

/-- The positive-voxel count of a mask, written from the words of the spec
(the cardinality written `|A|` there). -/
def spec_posCount (m : List ℚ) : ℕ :=
  (m.filter (fun v => decide (v = 1))).length

/-- The count of voxels positive in both masks, written from the words of
the spec (the cardinality written `|A ∩ B|` there). -/
def spec_interCount (a b : List ℚ) : ℕ :=
  ((List.zip a b).filter (fun x => decide (x.1 = 1 ∧ x.2 = 1))).length

/-- A `nanmean` over entries that are all NaN is NaN. -/
lemma nanmean_eq_none (vals : List Val) (h : ∀ v ∈ vals, v = none) :
    nanmean vals = none := by
  have hnil : vals.filterMap id = [] :=
    List.filterMap_eq_nil_iff.mpr (fun a ha => h a ha)
  simp [nanmean, hnil]

/-- Element access for the combined prediction: position `i` of the output
is the thresholded `nanmean` of the selected containers at position `i`. -/
lemma combine_getD (pl : List (List Val)) (il : Option (List ℕ)) (i : ℕ)
    (hi : i < ((selectPredictions pl il).headD []).length) :
    (multiClass3d_combine pl il).getD i none =
      setHighToOne (setLowToZero
        (nanmean ((selectPredictions pl il).map (fun l => l.getD i none)))) := by
  have h1 :
      (List.range ((selectPredictions pl il).headD []).length)[i]? = some i :=
    List.getElem?_range hi
  simp only [multiClass3d_combine, base_combine, List.getD_eq_getElem?_getD,
    List.getElem?_map, h1, Option.map_some', Option.getD_some]

/-- C1: the combine operation averages per-voxel predictions across the
containers covering each position and then thresholds the average: an
average strictly below 0.5 becomes 0.0 and an average at or above 0.5
becomes 1.0; averaging 0.2 and 1.0 gives 0.6 and hence label 1.0. -/
theorem C1_combine_averages_then_thresholds :
    (∀ (pl : List (List Val)) (il : Option (List ℕ)) (i : ℕ) (a : ℚ),
        i < ((selectPredictions pl il).headD []).length →
        nanmean ((selectPredictions pl il).map (fun l => l.getD i none)) =
          some a →
        (multiClass3d_combine pl il).getD i none =
          (if a < 1/2 then some (0 : ℚ) else some 1)) ∧
    nanmean [some (1/5), some 1] = some (3/5) ∧
    multiClass3d_combine [[some (1/5)], [some 1]] none = [some 1] := by
  refine ⟨?_, ?_, ?_⟩
  · intro pl il i a hi hmean
    rw [combine_getD pl il i hi, hmean]
    simp only [setLowToZero]
    by_cases h : a < 1/2
    · rw [if_pos h, if_pos h]
      simp only [setHighToOne]
      rw [if_neg (by norm_num : ¬ (1/2 : ℚ) ≤ (0 : ℚ))]
    · rw [if_neg h, if_neg h]
      simp only [setHighToOne]
      rw [if_pos (not_lt.mp h)]
  · simp [nanmean]
    norm_num
  · have h : List.range 1 = [0] := rfl
    simp [multiClass3d_combine, base_combine, selectPredictions, nanmean,
      setLowToZero, setHighToOne, h]
    norm_num

/-- C1 witness: the general thresholding statement applied to the concrete
pair of containers holding 0.2 and 1.0 at the single voxel. -/
theorem C1_witness :
    (multiClass3d_combine [[some (1/5)], [some 1]] none).getD 0 none =
      some 1 := by
  have h := C1_combine_averages_then_thresholds.1
    [[some (1/5)], [some 1]] none 0 (3/5) (by norm_num [selectPredictions])
    (by simp [selectPredictions, nanmean]; norm_num)
  norm_num at h
  exact h

/-- C5: a position that is NaN in every contributing container stays NaN
through combine (the thresholding does not coerce it to 0.0 or 1.0), and
the valid-index query on a rank-4 container is the pointwise non-NaN mask,
true exactly at non-NaN entries. -/
theorem C5_nan_stays_nan_and_valid_indexes :
    (∀ (pl : List (List Val)) (il : Option (List ℕ)) (i : ℕ),
        i < ((selectPredictions pl il).headD []).length →
        (∀ l ∈ selectPredictions pl il, l.getD i none = none) →
        (multiClass3d_combine pl il).getD i none = none) ∧
    (∀ (shape : List ℕ) (data : List Val), shape.length = 4 →
        valid_indexes shape data = Except.ok (data.map Option.isSome)) ∧
    (∀ v : Val, Option.isSome v = true ↔ v ≠ none) := by
  refine ⟨?_, ?_, fun v => Option.isSome_iff_ne_none⟩
  · intro pl il i hi hall
    rw [combine_getD pl il i hi, nanmean_eq_none _ ?_]
    · rfl
    · intro v hv
      rcases List.mem_map.mp hv with ⟨l, hl, rfl⟩
      exact hall l hl
  · intro shape data h
    simp only [valid_indexes, if_pos h]
    congr 1
    exact List.map_congr_left fun v _ => by cases v <;> rfl

/-- C5 witness: an all-NaN voxel of two containers stays NaN after combine,
and the valid-index mask of a concrete rank-4 container flags exactly the
non-NaN entry. -/
theorem C5_witness :
    (multiClass3d_combine [[none, some 1], [none, some 0]] none).getD 0 none
      = none ∧
    valid_indexes [2, 193, 229, 193] [some 1, none] =
      Except.ok [true, false] := by
  constructor
  · exact C5_nan_stays_nan_and_valid_indexes.1
      [[none, some 1], [none, some 0]] none 0 (by decide) (by decide)
  · have h := C5_nan_stays_nan_and_valid_indexes.2.1
      [2, 193, 229, 193] [some 1, none] (by decide)
    simpa using h

/-- `check_mask` succeeds exactly on masks whose entries are all 0 or 1. -/
lemma check_mask_ok_iff (mask : List ℚ) :
    check_mask mask = Except.ok () ↔ ∀ v ∈ mask, v = 0 ∨ v = 1 := by
  unfold check_mask
  split
  case isTrue h =>
    simp only [List.all_eq_true, decide_eq_true_eq] at h
    exact iff_of_true rfl h
  case isFalse h =>
    simp only [List.all_eq_true, decide_eq_true_eq] at h
    exact iff_of_false (fun hx => Except.noConfusion hx) h

/-- `check_mask` fails exactly on masks with an entry outside 0, 1. -/
lemma check_mask_error_iff (mask : List ℚ) :
    (∃ e, check_mask mask = Except.error e) ↔
      ∃ v ∈ mask, ¬(v = 0 ∨ v = 1) := by
  unfold check_mask
  split
  case isTrue h =>
    simp only [List.all_eq_true, decide_eq_true_eq] at h
    constructor
    · rintro ⟨e, he⟩
      exact Except.noConfusion he
    · rintro ⟨v, hv, hc⟩
      exact absurd (h v hv) hc
  case isFalse h =>
    simp only [List.all_eq_true, decide_eq_true_eq] at h
    push_neg at h
    rcases h with ⟨v, hv, hc⟩
    exact iff_of_true ⟨_, rfl⟩ ⟨v, hv, fun hd => hd.elim hc.1 hc.2⟩

/-- C7: the mask validator fails if and only if some element of the volume
lies outside 0, 1; in particular it rejects any volume containing the
value 2, and it accepts every volume whose elements are all 0 or 1. -/
theorem C7_check_mask_binary_only (mask : List ℚ) :
    ((∃ e, check_mask mask = Except.error e) ↔
      ∃ v ∈ mask, ¬(v = 0 ∨ v = 1)) ∧
    ((2 : ℚ) ∈ mask → ∃ e, check_mask mask = Except.error e) ∧
    ((∀ v ∈ mask, v = 0 ∨ v = 1) → check_mask mask = Except.ok ()) :=
  ⟨check_mask_error_iff mask,
   fun h2 => (check_mask_error_iff mask).mpr ⟨2, h2, by norm_num⟩,
   fun h => (check_mask_ok_iff mask).mpr h⟩

/-- C7 witness: the validator rejects a volume containing a 2 beside valid
voxels and accepts an all-binary volume. -/
theorem C7_witness :
    (∃ e, check_mask [0, 1, 2] = Except.error e) ∧
    check_mask [0, 1] = Except.ok () :=
  ⟨(C7_check_mask_binary_only [0, 1, 2]).2.1 (by norm_num),
   (C7_check_mask_binary_only [0, 1]).2.2 (by norm_num)⟩

/-- The dimension check succeeds exactly on rank-4 shapes with the
configured spatial extents. -/
lemma check_y_pred_dimensions_ok_iff (x y z : ℕ) (s : List ℕ) :
    check_y_pred_dimensions x y z s = Except.ok () ↔
      (s.length = 4 ∧ s.drop 1 = [x, y, z]) := by
  unfold check_y_pred_dimensions
  by_cases h1 : s.length ≠ 4
  · rw [if_pos h1]
    exact iff_of_false (fun hx => Except.noConfusion hx) (fun hc => h1 hc.1)
  · rw [if_neg h1]
    push_neg at h1
    by_cases h2 : s.drop 1 ≠ [x, y, z]
    · rw [if_pos h2]
      exact iff_of_false (fun hx => Except.noConfusion hx) (fun hc => h2 hc.2)
    · rw [if_neg h2]
      push_neg at h2
      exact iff_of_true rfl ⟨h1, h2⟩

/-- Construction from a `y_pred` shape is the dimension check followed by
storing the shape. -/
lemma multiClass3d_init_y_pred (x y z : ℕ) (ln : List ℤ) (s : List ℕ) :
    multiClass3d_init x y z ln (some s) none none =
      (check_y_pred_dimensions x y z s).bind (fun _ => Except.ok s) := rfl

/-- Construction from a `y_true` shape is the dimension check followed by
storing the shape. -/
lemma multiClass3d_init_y_true (x y z : ℕ) (ln : List ℤ) (s : List ℕ) :
    multiClass3d_init x y z ln none (some s) none =
      (check_y_pred_dimensions x y z s).bind (fun _ => Except.ok s) := rfl

/-- Construction from `n_samples` checks the freshly built 4-D shape. -/
lemma multiClass3d_init_n_samples (x y z : ℕ) (ln : List ℤ) (n : ℕ) :
    multiClass3d_init x y z ln none none (some n) =
      (check_y_pred_dimensions x y z [n, x, y, z]).bind
        (fun _ => Except.ok [n, x, y, z]) := rfl

/-- Sequencing a pure result after a check succeeds iff the check does. -/
lemma bind_ok_isOk (e : Except String Unit) (s : List ℕ) :
    (e.bind (fun _ => Except.ok s)).isOk = true ↔ e = Except.ok () := by
  cases e with
  | error msg => simp [Except.bind, Except.isOk, Except.toBool]
  | ok u => cases u; simp [Except.bind, Except.isOk, Except.toBool]

/-- C3: prediction-container construction raises the rank error when the
array rank is not 4, raises the expected-versus-actual error when the rank
is 4 but the spatial dimensions differ from the configured ones, and
succeeds exactly when the shape is `(N, x, y, z)`, for arrays passed as
`y_pred`, as `y_true`, or built from `n_samples`. -/
theorem C3_construction_shape_validation :
    (∀ (x y z : ℕ) (s : List ℕ), s.length ≠ 4 →
        check_y_pred_dimensions x y z s = Except.error
          ("Wrong y_pred dimensions: y_pred should be 4D, of size:(" ++
            toString (s.headD 0) ++ " x " ++ toString x ++ " x " ++
            toString y ++ " x " ++ toString z ++
            ")instead its shape is " ++ toString s)) ∧
    (∀ (x y z : ℕ) (s : List ℕ), s.length = 4 → s.drop 1 ≠ [x, y, z] →
        check_y_pred_dimensions x y z s = Except.error
          ("Wrong y_pred dimensions: y_pred should be " ++ toString x ++
            " x " ++ toString y ++ " x " ++ toString z ++
            " instead its shape is " ++ toString s)) ∧
    (∀ (x y z : ℕ) (ln : List ℤ) (s : List ℕ),
        (multiClass3d_init x y z ln (some s) none none).isOk = true ↔
          (s.length = 4 ∧ s.drop 1 = [x, y, z])) ∧
    (∀ (x y z : ℕ) (ln : List ℤ) (s : List ℕ),
        (multiClass3d_init x y z ln none (some s) none).isOk = true ↔
          (s.length = 4 ∧ s.drop 1 = [x, y, z])) ∧
    (∀ (x y z : ℕ) (ln : List ℤ) (n : ℕ),
        multiClass3d_init x y z ln none none (some n) =
          Except.ok [n, x, y, z]) := by
  refine ⟨?_, ?_, ?_, ?_, ?_⟩
  · intro x y z s h1
    unfold check_y_pred_dimensions
    rw [if_pos h1]
  · intro x y z s h1 h2
    unfold check_y_pred_dimensions
    rw [if_neg (by simp [h1]), if_pos h2]
  · intro x y z ln s
    rw [multiClass3d_init_y_pred, bind_ok_isOk,
      check_y_pred_dimensions_ok_iff]
  · intro x y z ln s
    rw [multiClass3d_init_y_true, bind_ok_isOk,
      check_y_pred_dimensions_ok_iff]
  · intro x y z ln n
    rw [multiClass3d_init_n_samples,
      (check_y_pred_dimensions_ok_iff x y z [n, x, y, z]).mpr (by simp)]
    rfl

/-- C3 witness: a rank-3 shape is rejected, a rank-4 shape with wrong
spatial extents is rejected, the matching shape is accepted, and the
`n_samples` construction succeeds. -/
theorem C3_witness :
    (multiClass3d_init 193 229 193 [0, 1] (some [2, 2, 2]) none
      none).isOk = false ∧
    (multiClass3d_init 193 229 193 [0, 1] none (some [2, 9, 9, 9])
      none).isOk = false ∧
    (multiClass3d_init 193 229 193 [0, 1] (some [2, 193, 229, 193]) none
      none).isOk = true ∧
    multiClass3d_init 193 229 193 [0, 1] none none (some 2) =
      Except.ok [2, 193, 229, 193] := by
  refine ⟨?_, ?_, ?_, ?_⟩
  · have h := (C3_construction_shape_validation.2.2.1
      193 229 193 [0, 1] [2, 2, 2])
    simp only [show ([2, 2, 2] : List ℕ).length = 3 from rfl] at h
    simp at h
    exact h
  · have h := (C3_construction_shape_validation.2.2.2.1
      193 229 193 [0, 1] [2, 9, 9, 9])
    simp at h
    exact h
  · exact (C3_construction_shape_validation.2.2.1
      193 229 193 [0, 1] [2, 193, 229, 193]).mpr (by simp)
  · exact C3_construction_shape_validation.2.2.2.2 193 229 193 [0, 1] 2

/-- The sum of a binary mask is its positive-voxel count. -/
lemma binary_sum_eq_posCount : ∀ (A : List ℚ), binaryMask A →
    A.sum = (spec_posCount A : ℚ)
  | [], _ => by simp [spec_posCount]
  | a :: t, hA => by
    have ha := hA a (List.mem_cons_self _ _)
    have ih := binary_sum_eq_posCount t
      (fun v hv => hA v (List.mem_cons_of_mem _ hv))
    rcases ha with rfl | rfl <;>
      simp [spec_posCount, List.filter_cons, List.sum_cons, ih] <;> ring

/-- A mask has positive count zero exactly when no entry is 1. -/
lemma posCount_eq_zero_iff (A : List ℚ) :
    spec_posCount A = 0 ↔ ∀ v ∈ A, ¬(v = 1) := by
  simp [spec_posCount, List.length_eq_zero, List.filter_eq_nil_iff]

/-- On a binary mask, `np.any` is false exactly when the positive count is
zero. -/
lemma npAny_false_iff (A : List ℚ) (hA : binaryMask A) :
    npAny A = false ↔ spec_posCount A = 0 := by
  rw [posCount_eq_zero_iff]
  simp only [npAny, List.any_eq_false, decide_eq_true_eq, not_not]
  constructor
  · intro h v hv hv1
    rw [hv1] at hv
    exact one_ne_zero (h 1 hv)
  · intro h v hv
    rcases hA v hv with rfl | rfl
    · rfl
    · exact absurd rfl (h 1 hv)

/-- On binary masks, the source intersection sum is twice the both-positive
count. -/
lemma interSum_eq : ∀ (A B : List ℚ), binaryMask A → binaryMask B →
    interSum B A = 2 * (spec_interCount A B : ℚ)
  | [], B, _, _ => by
    cases B <;> simp [interSum, spec_interCount]
  | a :: t, [], _, _ => by
    simp [interSum, spec_interCount]
  | a :: t, b :: u, hA, hB => by
    have ha := hA a (List.mem_cons_self _ _)
    have hb := hB b (List.mem_cons_self _ _)
    have ih := interSum_eq t u (fun v hv => hA v (List.mem_cons_of_mem _ hv))
      (fun v hv => hB v (List.mem_cons_of_mem _ hv))
    simp only [interSum] at ih
    rcases ha with rfl | rfl <;> rcases hb with rfl | rfl <;>
      simp [interSum, spec_interCount, List.zip_cons_cons, List.filter_cons,
        List.sum_cons, ih] <;>
      push_cast <;> ring

/-- The both-positive count is at most the first mask's positive count. -/
lemma interCount_le_left : ∀ (A B : List ℚ),
    spec_interCount A B ≤ spec_posCount A
  | [], B => by simp [spec_interCount, spec_posCount]
  | a :: t, [] => by simp [spec_interCount, spec_posCount]
  | a :: t, b :: u => by
    have ih := interCount_le_left t u
    simp only [spec_interCount, spec_posCount, List.zip_cons_cons,
      List.filter_cons, Bool.decide_and] at ih ⊢
    by_cases ha : a = 1 <;> by_cases hb : b = 1 <;>
      simp [ha, hb] <;> omega

/-- The both-positive count is at most the second mask's positive count. -/
lemma interCount_le_right : ∀ (A B : List ℚ),
    spec_interCount A B ≤ spec_posCount B
  | [], B => by simp [spec_interCount, spec_posCount]
  | a :: t, [] => by simp [spec_interCount, spec_posCount]
  | a :: t, b :: u => by
    have ih := interCount_le_right t u
    simp only [spec_interCount, spec_posCount, List.zip_cons_cons,
      List.filter_cons, Bool.decide_and] at ih ⊢
    by_cases ha : a = 1 <;> by_cases hb : b = 1 <;>
      simp [ha, hb] <;> omega

/-- A mask intersected with itself has its own positive count. -/
lemma interCount_self (A : List ℚ) :
    spec_interCount A A = spec_posCount A := by
  induction A with
  | nil => simp [spec_interCount, spec_posCount]
  | cons a t ih =>
    simp only [spec_interCount, spec_posCount, List.zip_cons_cons,
      List.filter_cons, Bool.decide_and] at ih ⊢
    by_cases ha : a = 1 <;> simp [ha, ih]

/-- On binary masks the Dice call passes validation and returns the
raw coefficient. -/
lemma DiceCoeff_call_eq (A B : List ℚ) (hA : binaryMask A)
    (hB : binaryMask B) :
    DiceCoeff_call A B = Except.ok (dice_coeff A B) := by
  unfold DiceCoeff_call
  rw [(check_mask_ok_iff A).mpr hA, (check_mask_ok_iff B).mpr hB]
  rfl

/-- On binary masks the source Dice coefficient equals the count formula of
the spec. -/
lemma dice_coeff_eq_spec (A B : List ℚ) (hA : binaryMask A)
    (hB : binaryMask B) :
    dice_coeff A B =
      (if spec_posCount A = 0 ∧ spec_posCount B = 0 then 1
       else 2 * (spec_interCount A B : ℚ) /
         ((spec_posCount A : ℚ) + (spec_posCount B : ℚ))) := by
  unfold dice_coeff
  by_cases hc : spec_posCount A = 0 ∧ spec_posCount B = 0
  · have hA0 : npAny A = false := (npAny_false_iff A hA).mpr hc.1
    have hB0 : npAny B = false := (npAny_false_iff B hB).mpr hc.2
    rw [if_pos (by simp [hA0, hB0] : (!npAny B && !npAny A) = true),
      if_pos hc]
  · have hcond : ¬((!npAny B && !npAny A) = true) := by
      intro hcond
      rw [Bool.and_eq_true, Bool.not_eq_true', Bool.not_eq_true'] at hcond
      exact hc ⟨(npAny_false_iff A hA).mp hcond.2,
        (npAny_false_iff B hB).mp hcond.1⟩
    rw [if_neg hcond, if_neg hc, interSum_eq A B hA hB,
      binary_sum_eq_posCount A hA, binary_sum_eq_posCount B hB,
      add_comm ((spec_posCount B : ℚ)) ((spec_posCount A : ℚ))]

/-- The Dice coefficient of binary masks lies in the unit interval. -/
lemma dice_coeff_bounds (A B : List ℚ) (hA : binaryMask A)
    (hB : binaryMask B) :
    0 ≤ dice_coeff A B ∧ dice_coeff A B ≤ 1 := by
  rw [dice_coeff_eq_spec A B hA hB]
  by_cases hc : spec_posCount A = 0 ∧ spec_posCount B = 0
  · rw [if_pos hc]
    norm_num
  · rw [if_neg hc]
    have h1 := interCount_le_left A B
    have h2 := interCount_le_right A B
    have hpos : 0 < spec_posCount A + spec_posCount B := by
      rcases Nat.eq_zero_or_pos (spec_posCount A) with h0 | h0
      · rcases Nat.eq_zero_or_pos (spec_posCount B) with h0b | h0b
        · exact absurd ⟨h0, h0b⟩ hc
        · omega
      · omega
    have hden : (0 : ℚ) < (spec_posCount A : ℚ) + (spec_posCount B : ℚ) := by
      exact_mod_cast hpos
    constructor
    · exact div_nonneg (by positivity) hden.le
    · rw [div_le_one hden]
      have hnat : 2 * spec_interCount A B ≤
          spec_posCount A + spec_posCount B := by omega
      exact_mod_cast hnat

/-- The Dice coefficient of a binary mask with itself is 1. -/
lemma dice_coeff_self (A : List ℚ) (hA : binaryMask A) :
    dice_coeff A A = 1 := by
  rw [dice_coeff_eq_spec A A hA hA, interCount_self]
  by_cases hc : spec_posCount A = 0
  · rw [if_pos ⟨hc, hc⟩]
  · rw [if_neg (fun h => hc h.1)]
    have hpos : (0 : ℚ) < (spec_posCount A : ℚ) := by
      exact_mod_cast Nat.pos_of_ne_zero hc
    rw [div_eq_one_iff_eq (by positivity)]
    ring

/-- An all-zero volume is a binary mask. -/
lemma binaryMask_replicate_zero (n : ℕ) :
    binaryMask (List.replicate n (0 : ℚ)) :=
  fun v hv => Or.inl (List.eq_of_mem_replicate hv)

/-- C2: on same-shaped binary masks the Dice score returns 1 when neither
mask has a positive voxel, and otherwise twice the both-positive count over
the sum of the positive counts. -/
theorem C2_dice_formula (A B : List ℚ) (hA : binaryMask A)
    (hB : binaryMask B) (hlen : A.length = B.length) :
    DiceCoeff_call A B = Except.ok
      (if spec_posCount A = 0 ∧ spec_posCount B = 0 then 1
       else 2 * (spec_interCount A B : ℚ) /
         ((spec_posCount A : ℚ) + (spec_posCount B : ℚ))) := by
  rw [DiceCoeff_call_eq A B hA hB, dice_coeff_eq_spec A B hA hB]

/-- C2 witness: the formula at masks with counts 1 and 2 sharing one
positive voxel, giving 2·1/(1+2). -/
theorem C2_witness : DiceCoeff_call [1, 0] [1, 1] = Except.ok (2/3) := by
  have h := C2_dice_formula [1, 0] [1, 1] (by decide) (by decide) rfl
  rw [h]
  norm_num [spec_posCount, spec_interCount]

/-- C8: on same-shaped binary masks the Dice score is in the unit
interval, is 1 on identical masks, and is 1 on two all-zero volumes. -/
theorem C8_dice_algebraic_properties (A B : List ℚ) (hA : binaryMask A)
    (hB : binaryMask B) (hlen : A.length = B.length) :
    (∃ r, DiceCoeff_call A B = Except.ok r ∧ 0 ≤ r ∧ r ≤ 1) ∧
    DiceCoeff_call A A = Except.ok 1 ∧
    (∀ n, DiceCoeff_call (List.replicate n (0 : ℚ)) (List.replicate n 0) =
      Except.ok 1) := by
  refine ⟨⟨dice_coeff A B, DiceCoeff_call_eq A B hA hB,
    dice_coeff_bounds A B hA hB⟩, ?_, fun n => ?_⟩
  · rw [DiceCoeff_call_eq A A hA hA, dice_coeff_self A hA]
  · rw [DiceCoeff_call_eq _ _ (binaryMask_replicate_zero n)
      (binaryMask_replicate_zero n),
      dice_coeff_self _ (binaryMask_replicate_zero n)]

/-- C8 witness: the properties at a concrete mask pair with positive
voxels, and at the all-zero pair of size 3. -/
theorem C8_witness :
    (∃ r, DiceCoeff_call [1, 0] [0, 1] = Except.ok r ∧ 0 ≤ r ∧ r ≤ 1) ∧
    DiceCoeff_call [1, 0] [1, 0] = Except.ok 1 ∧
    DiceCoeff_call [0, 0, 0] [0, 0, 0] = Except.ok 1 := by
  have h := C8_dice_algebraic_properties [1, 0] [0, 1]
    (by decide) (by decide) rfl
  exact ⟨h.1, h.2.1, by simpa using h.2.2 3⟩

/-- On binary masks the precision call passes validation and reduces to the
guarded branch. -/
lemma Precision_call_eq (A B : List ℚ) (hA : binaryMask A)
    (hB : binaryMask B) :
    Precision_call A B =
      if B.sum = 0 ∧ ¬(A.sum = 0) then Except.ok 0
      else Except.ok (precision_score A B) := by
  unfold Precision_call
  rw [(check_mask_ok_iff A).mpr hA, (check_mask_ok_iff B).mpr hB]
  rfl

/-- C6: on binary masks the precision score returns 0.0 whenever the
prediction has no positive voxel while the truth has at least one, and
otherwise returns the (spec-modelled) standard precision of the flattened
labels. -/
theorem C6_precision_guard (A B : List ℚ) (hA : binaryMask A)
    (hB : binaryMask B) :
    (spec_posCount B = 0 ∧ spec_posCount A ≠ 0 →
      Precision_call A B = Except.ok 0) ∧
    (¬(spec_posCount B = 0 ∧ spec_posCount A ≠ 0) →
      Precision_call A B = Except.ok (precision_score A B)) := by
  have hsA : A.sum = (spec_posCount A : ℚ) := binary_sum_eq_posCount A hA
  have hsB : B.sum = (spec_posCount B : ℚ) := binary_sum_eq_posCount B hB
  constructor
  · intro hc
    rw [Precision_call_eq A B hA hB,
      if_pos ⟨by rw [hsB, hc.1]; norm_num,
        by rw [hsA]; exact Nat.cast_ne_zero.mpr hc.2⟩]
  · intro hc
    rw [Precision_call_eq A B hA hB, if_neg]
    intro hq
    exact hc ⟨by exact_mod_cast hsB ▸ hq.1,
      fun h0 => hq.2 (by rw [hsA, h0]; norm_num)⟩

/-- C6 witness: the guard at an empty prediction against a positive truth
gives 0, and a non-degenerate pair falls through to the standard
precision. -/
theorem C6_witness :
    Precision_call [1] [0] = Except.ok 0 ∧
    Precision_call [1] [1] = Except.ok (precision_score [1] [1]) := by
  constructor
  · exact (C6_precision_guard [1] [0] (by decide) (by decide)).1 (by decide)
  · exact (C6_precision_guard [1] [1] (by decide) (by decide)).2 (by decide)

/-- On binary masks the absolute-volume-difference call passes validation
and returns the absolute difference of the means. -/
lemma AVD_call_eq (A B : List ℚ) (hA : binaryMask A) (hB : binaryMask B) :
    AbsoluteVolumeDifference_call A B =
      Except.ok |npMean A - npMean B| := by
  unfold AbsoluteVolumeDifference_call
  rw [(check_mask_ok_iff A).mpr hA, (check_mask_ok_iff B).mpr hB]
  rfl

/-- C9: on same-shaped binary masks the absolute volume difference equals
the absolute difference of the mean labels, is symmetric in its arguments,
and vanishes on identical masks. -/
theorem C9_avd_properties (A B : List ℚ) (hA : binaryMask A)
    (hB : binaryMask B) (hlen : A.length = B.length) :
    AbsoluteVolumeDifference_call A B = Except.ok |npMean A - npMean B| ∧
    AbsoluteVolumeDifference_call A B =
      AbsoluteVolumeDifference_call B A ∧
    AbsoluteVolumeDifference_call A A = Except.ok 0 := by
  refine ⟨AVD_call_eq A B hA hB, ?_, ?_⟩
  · rw [AVD_call_eq A B hA hB, AVD_call_eq B A hB hA, abs_sub_comm]
  · rw [AVD_call_eq A A hA hA]
    simp

/-- C9 witness: the three properties at a concrete mask pair. -/
theorem C9_witness :
    AbsoluteVolumeDifference_call [1, 0] [1, 1] =
      Except.ok |npMean [1, 0] - npMean [1, 1]| ∧
    AbsoluteVolumeDifference_call [1, 0] [1, 1] =
      AbsoluteVolumeDifference_call [1, 1] [1, 0] ∧
    AbsoluteVolumeDifference_call [1, 0] [1, 0] = Except.ok 0 :=
  C9_avd_properties [1, 0] [1, 1] (by decide) (by decide) rfl

/-- The Fisher-Yates selection with fuel `fuel` yields `fuel` elements. -/
lemma fyGo_length : ∀ (fuel s : ℕ) (l : List ℕ),
    (fyGo fuel s l).length = fuel
  | 0, _, _ => rfl
  | n + 1, s, l => by
    simp [fyGo, fyGo_length n (lcg s) _]

/-- The modelled `ShuffleSplit` yields exactly `n_splits` splits. -/
lemma shuffleSplit_length (k r n : ℕ) : (shuffleSplit k r n).length = k := by
  simp [shuffleSplit]

/-- In every split of the modelled `ShuffleSplit` the test set holds
`ceil(n/5)` indices and the train set the rest. -/
lemma shuffleSplit_sizes (k r n : ℕ) (tr te : List ℕ)
    (h : (tr, te) ∈ shuffleSplit k r n) :
    te.length = (n + 4) / 5 ∧ tr.length = n - (n + 4) / 5 := by
  simp only [shuffleSplit, List.mem_map, List.mem_range] at h
  rcases h with ⟨j, hj, hpair⟩
  have hte := congrArg Prod.snd hpair
  have htr := congrArg Prod.fst hpair
  simp only at hte htr
  have hperm : (fyGo n (lcg (r + j + 1)) (List.range n)).length = n :=
    fyGo_length n _ _
  constructor
  · rw [← hte, List.length_take, hperm]
    omega
  · rw [← htr, List.length_drop, hperm]

/-- C4 counterexample: `RAMP_TEST_MODE` set to the empty string is a set
environment variable, yet `get_cv` yields 8 splits, not the 1 split the
claim requires for every set value (the code tests Python truthiness, not
presence). -/
theorem C4_counterexample_empty_string_env :
    (get_cv (some "") 10).length = 8 ∧
    ¬((get_cv (some "") 10).length = 1) := by
  have h : (get_cv (some "") 10).length = 8 :=
    shuffleSplit_length 8 RANDOM_STATE 10
  exact ⟨h, by rw [h]; norm_num⟩

/-- C4 amended: with `RAMP_TEST_MODE` unset `get_cv` yields 8 splits, each
holding out `ceil(n/5)` samples (20% of the samples, rounded up); with the
variable set to a non-empty (truthy) string it yields exactly 1 such
split; and the splits are deterministic, so repeated calls agree. -/
theorem C4_get_cv_split_counts (n : ℕ) :
    ((get_cv none n).length = 8 ∧
      ∀ tr te, (tr, te) ∈ get_cv none n →
        te.length = (n + 4) / 5 ∧ tr.length = n - (n + 4) / 5) ∧
    (∀ s : String, s ≠ "" →
      (get_cv (some s) n).length = 1 ∧
      ∀ tr te, (tr, te) ∈ get_cv (some s) n →
        te.length = (n + 4) / 5 ∧ tr.length = n - (n + 4) / 5) ∧
    (∀ t, get_cv t n = get_cv t n) := by
  refine ⟨⟨?_, ?_⟩, ?_, fun t => rfl⟩
  · exact shuffleSplit_length 8 RANDOM_STATE n
  · intro tr te h
    exact shuffleSplit_sizes 8 RANDOM_STATE n tr te h
  · intro s hs
    have hie : s.isEmpty = false := by
      rw [Bool.eq_false_iff]
      intro hemp
      exact hs ((String.isEmpty_iff s).mp hemp)
    have hcv : get_cv (some s) n = shuffleSplit 1 RANDOM_STATE n := by
      simp [get_cv, pythonTruthy, hie]
    rw [hcv]
    exact ⟨shuffleSplit_length 1 RANDOM_STATE n,
      fun tr te h => shuffleSplit_sizes 1 RANDOM_STATE n tr te h⟩

/-- C4 witness: over 10 samples, unset mode gives 8 splits and the truthy
string "1" gives 1 split. -/
theorem C4_witness :
    (get_cv none 10).length = 8 ∧ (get_cv (some "1") 10).length = 1 :=
  ⟨(C4_get_cv_split_counts 10).1.1,
   ((C4_get_cv_split_counts 10).2.1 "1" (by decide)).1⟩

/-- C10: the estimator predict thresholds strictly (an output above 0.5
becomes 1, an output at or below 0.5, including exactly 0.5, becomes 0 —
the opposite inclusivity of combine, where 0.5 becomes 1.0), drops the
trailing channel dimension, and returns only values 0 and 1. -/
theorem C10_predict_strict_threshold :
    (∀ (y : List ℚ) (sh : List ℕ) (i : ℕ), i < y.length →
        (keras_predict y sh).1.getD i 0 =
          (if 1/2 < y.getD i 0 then 1 else 0)) ∧
    (∀ (y : List ℚ) (sh : List ℕ), (keras_predict y sh).2 = sh.dropLast) ∧
    (∀ (y : List ℚ) (sh : List ℕ) (w : ℚ), w ∈ (keras_predict y sh).1 →
        w = 0 ∨ w = 1) ∧
    (keras_predict [1/2] [193, 229, 193, 1]).1 = [0] ∧
    multiClass3d_combine [[some (1/2)]] none = [some 1] := by
  refine ⟨?_, fun y sh => rfl, ?_, ?_, ?_⟩
  · intro y sh i hi
    simp [keras_predict, List.getD_eq_getElem?_getD, List.getElem?_map,
      List.getElem?_eq_getElem hi]
  · intro y sh w hw
    rcases List.mem_map.mp hw with ⟨v, hv, rfl⟩
    by_cases h : 1/2 < v
    · right
      rw [if_pos h]
    · left
      rw [if_neg h]
  · have h : ¬ ((1 : ℚ)/2 < 1/2) := by norm_num
    simp [keras_predict, h]
  · have h : List.range 1 = [0] := rfl
    simp [multiClass3d_combine, base_combine, selectPredictions, nanmean,
      setLowToZero, setHighToOne, h]

/-- C10 witness: on the network outputs 0.75 and 0.5 the predict threshold
gives 1 and 0 and the channel dimension is dropped from the shape. -/
theorem C10_witness :
    (keras_predict [3/4, 1/2] [193, 229, 193, 1]).1.getD 1 0 = 0 ∧
    (keras_predict [3/4, 1/2] [193, 229, 193, 1]).1.getD 0 0 = 1 ∧
    (keras_predict [3/4, 1/2] [193, 229, 193, 1]).2 = [193, 229, 193] := by
  refine ⟨?_, ?_,
    C10_predict_strict_threshold.2.1 [3/4, 1/2] [193, 229, 193, 1]⟩
  · have h := C10_predict_strict_threshold.1 [3/4, 1/2] [193, 229, 193, 1] 1
      (by norm_num)
    rw [h]
    norm_num
  · have h := C10_predict_strict_threshold.1 [3/4, 1/2] [193, 229, 193, 1] 0
      (by norm_num)
    rw [h]
    norm_num

end Stroke
